import Mathlib

/-!
Shallow embedding of the DriveNest marketplace core (src/app.py):
the listing / transaction / rating / messaging / favorites lifecycle.

Rows of the SQLite tables become Lean structures, the database becomes a
`State` holding the table contents together with the AUTOINCREMENT
counters and a logical clock standing for `datetime.utcnow()`.
Each Flask handler's core (after form decoding) becomes a function
`State → … → Except Err State`; an `Err` result corresponds to a
flash-and-redirect path of the handler, which performs no database write.
-/

/-- Listing status: `CAR_STATUS_ACTIVE` / `CAR_STATUS_COMPLETED` in app.py. -/
inductive CarStatus where
  | active
  | completed
deriving DecidableEq

/-- Transaction status strings "pending" / "completed" / "canceled". -/
inductive TxStatus where
  | pending
  | completed
  | canceled
deriving DecidableEq

/-- Failure outcomes of an operation (the spec's error taxonomy §7). -/
inductive Err where
  | notFound
  | forbidden
  | invalidState
  | validationError
deriving DecidableEq

/-- A row of the users table (the fields the core reads). -/
structure User where
  id : Nat
  verified : Bool
  isAdmin : Bool
deriving DecidableEq

/-- A row of the cars table (the fields the core reads). -/
structure Car where
  id : Nat
  userId : Nat
  status : CarStatus
deriving DecidableEq

/-- A row of the transactions table. -/
structure Txn where
  id : Nat
  carId : Nat
  sellerId : Nat
  buyerId : Nat
  status : TxStatus
  completedAt : Nat
deriving DecidableEq

/-- A row of the transaction_ratings table (`transaction_id` is UNIQUE in the schema). -/
structure Rating where
  id : Nat
  transactionId : Nat
  sellerId : Nat
  buyerId : Nat
  reliability : Int
  accuracy : Int
  communication : Int
  product : Int
  comment : String
  createdAt : Nat
deriving DecidableEq

/-- A row of the message_threads table. -/
structure MsgThread where
  id : Nat
  carId : Nat
  sellerId : Nat
  buyerId : Nat
  createdAt : Nat
deriving DecidableEq

/-- A row of the messages table; `readAt = none` is the SQL NULL of `read_at`. -/
structure Msg where
  id : Nat
  threadId : Nat
  senderId : Nat
  recipientId : Nat
  body : String
  createdAt : Nat
  readAt : Option Nat
deriving DecidableEq

/-- A row of the favorites table, primary key (user_id, car_id). -/
structure Fav where
  userId : Nat
  carId : Nat
  createdAt : Nat
deriving DecidableEq

/-- The whole database plus AUTOINCREMENT counters and a logical clock. -/
structure State where
  users : List User
  cars : List Car
  transactions : List Txn
  ratings : List Rating
  threads : List MsgThread
  messages : List Msg
  favorites : List Fav
  nextTxnId : Nat
  nextRatingId : Nat
  nextThreadId : Nat
  nextMsgId : Nat
  clock : Nat
deriving DecidableEq

/-- `SELECT … FROM users WHERE id = ?` (get_user_by_id). -/
def findUser (s : State) (uid : Nat) : Option User :=
  s.users.find? fun u => u.id == uid

/-- `SELECT … FROM cars WHERE id = ?` (get_car_by_id). -/
def findCar (s : State) (cid : Nat) : Option Car :=
  s.cars.find? fun c => c.id == cid

/-- `SELECT … FROM transactions WHERE id = ?`. -/
def findTxn (s : State) (tid : Nat) : Option Txn :=
  s.transactions.find? fun t => t.id == tid

/-- `SELECT * FROM message_threads WHERE id = ?`. -/
def findThread (s : State) (tid : Nat) : Option MsgThread :=
  s.threads.find? fun t => t.id == tid

/-- The handler `complete_car` (route /car/<id>/complete): the seller reserves
the listing for a named buyer.  Checks, in source order: caller logged in,
listing exists, caller owns it, buyer id differs from the caller, buyer
exists.  There is no check of the listing's current status.  On success the
listing's status is set to completed and one pending transaction is inserted. -/
def complete_car (s : State) (callerId carId buyerId : Nat) : Except Err State :=
  match findUser s callerId with
  | none => .error .forbidden
  | some u =>
    match findCar s carId with
    | none => .error .notFound
    | some car =>
      if car.userId ≠ u.id then .error .forbidden
      else if buyerId = u.id then .error .validationError
      else
        match findUser s buyerId with
        | none => .error .notFound
        | some _ =>
          .ok { s with
            cars := s.cars.map fun c =>
              if c.id = carId then { c with status := .completed } else c,
            transactions := s.transactions ++
              [⟨s.nextTxnId, carId, u.id, buyerId, .pending, s.clock⟩],
            nextTxnId := s.nextTxnId + 1,
            clock := s.clock + 1 }

/-- The handler `confirm_transaction` (route /transaction/<id>/confirm): the
buyer confirms.  Checks: caller logged in, transaction exists, caller is its
buyer.  The current status is not inspected; the status is then set to
completed by `UPDATE transactions SET status = ? WHERE id = ?`. -/
def confirm_transaction (s : State) (callerId txId : Nat) : Except Err State :=
  match findUser s callerId with
  | none => .error .forbidden
  | some u =>
    match findTxn s txId with
    | none => .error .forbidden
    | some t =>
      if t.buyerId ≠ u.id then .error .forbidden
      else
        .ok { s with
          transactions := s.transactions.map fun t0 =>
            if t0.id = txId then { t0 with status := .completed } else t0 }

/-- The handler `cancel_transaction` (route /transaction/<id>/cancel): either
party cancels.  Checks: caller logged in, transaction exists, caller is its
buyer or seller.  The current status is not inspected; the transaction's
status is set to canceled and the listing's status to active, unconditionally. -/
def cancel_transaction (s : State) (callerId txId : Nat) : Except Err State :=
  match findUser s callerId with
  | none => .error .forbidden
  | some u =>
    match findTxn s txId with
    | none => .error .forbidden
    | some t =>
      if t.buyerId ≠ u.id ∧ t.sellerId ≠ u.id then .error .forbidden
      else
        .ok { s with
          transactions := s.transactions.map fun t0 =>
            if t0.id = txId then { t0 with status := .canceled } else t0,
          cars := s.cars.map fun c =>
            if c.id = t.carId then { c with status := .active } else c }

/-- Validity of one rating score: `score.isdigit() and 1 <= int(score) <= 5`. -/
def score_ok (x : Int) : Prop := 1 ≤ x ∧ x ≤ 5

instance (x : Int) : Decidable (score_ok x) :=
  inferInstanceAs (Decidable (1 ≤ x ∧ x ≤ 5))

/-- The SET clause of the `ON CONFLICT(transaction_id) DO UPDATE`: overwrite
the four scores and the comment, keep id, parties and created_at. -/
def upd_scores (reliability accuracy communication product : Int)
    (comment : String) (x : Rating) : Rating :=
  { x with reliability := reliability, accuracy := accuracy,
           communication := communication, product := product,
           comment := comment }

/-- The handler `rate_transaction` (route /transaction/<id>/rate).  In source
order: caller logged in; all four scores in [1,5] else the validation flash;
transaction exists, caller is its buyer and its status is completed, else the
invalid-state flash; then `INSERT … ON CONFLICT(transaction_id) DO UPDATE`
upserting the single rating row keyed by the transaction id (the update
branch rewrites the four scores and the comment, keeping id, parties and
created_at). -/
def rate_transaction (s : State) (callerId txId : Nat)
    (reliability accuracy communication product : Int) (comment : String) :
    Except Err State :=
  match findUser s callerId with
  | none => .error .forbidden
  | some u =>
    if ¬ (score_ok reliability ∧ score_ok accuracy ∧
          score_ok communication ∧ score_ok product) then
      .error .validationError
    else
      match findTxn s txId with
      | none => .error .invalidState
      | some t =>
        if t.buyerId ≠ u.id ∨ t.status ≠ .completed then .error .invalidState
        else if s.ratings.any fun r => r.transactionId == txId then
          .ok { s with
            ratings := s.ratings.map fun r =>
              if r.transactionId = txId then
                upd_scores reliability accuracy communication product comment r
              else r }
        else
          .ok { s with
            ratings := s.ratings ++
              [⟨s.nextRatingId, txId, t.sellerId, t.buyerId, reliability,
                accuracy, communication, product, comment, s.clock⟩],
            nextRatingId := s.nextRatingId + 1,
            clock := s.clock + 1 }

/-- The handler `verify_seller` (route /verify): the caller opts in
(`agree == "yes"`); if they have at least 5 transactions with status
completed where they are the seller, their verified flag is set to 1. -/
def verify_seller (s : State) (callerId : Nat) (agree : Bool) : Except Err State :=
  match findUser s callerId with
  | none => .error .forbidden
  | some u =>
    if agree ≠ true then .error .invalidState
    else if (s.transactions.filter fun t =>
        t.sellerId == u.id && t.status == .completed).length < 5 then
      .error .invalidState
    else
      .ok { s with
        users := s.users.map fun u0 =>
          if u0.id = u.id then { u0 with verified := true } else u0 }

/-- The handler `admin_verify_user` (route /admin/verify): an admin sets the
target's verified flag to 1 when value == "1" and to 0 otherwise. -/
def admin_verify_user (s : State) (callerId targetId : Nat) (value : Bool) :
    Except Err State :=
  match findUser s callerId with
  | none => .error .forbidden
  | some u =>
    if ¬ u.isAdmin then .error .forbidden
    else
      .ok { s with
        users := s.users.map fun u0 =>
          if u0.id = targetId then { u0 with verified := value } else u0 }

/-- The function `get_or_create_thread`: look the thread up by the exact
(car, seller, buyer) triple; return its id, or insert a fresh row and return
the new id. -/
def get_or_create_thread (s : State) (carId sellerId buyerId : Nat) :
    Nat × State :=
  match s.threads.find? (fun t =>
      t.carId == carId && t.sellerId == sellerId && t.buyerId == buyerId) with
  | some t => (t.id, s)
  | none =>
    (s.nextThreadId,
      { s with
        threads := s.threads ++
          [⟨s.nextThreadId, carId, sellerId, buyerId, s.clock⟩],
        nextThreadId := s.nextThreadId + 1,
        clock := s.clock + 1 })

/-- Ordering of messages by creation time (`ORDER BY created_at ASC`). -/
def created_le (a b : Msg) : Prop := a.createdAt ≤ b.createdAt

instance : DecidableRel created_le :=
  fun a b => inferInstanceAs (Decidable (a.createdAt ≤ b.createdAt))

instance : IsTrans Msg created_le := ⟨fun _ _ _ h h2 => Nat.le_trans h h2⟩

instance : IsTotal Msg created_le := ⟨fun a b => Nat.le_total a.createdAt b.createdAt⟩

/-- The GET branch of the handler `message_thread` (route /messages/<id>):
open a thread.  Checks: caller logged in; thread exists and the caller is its
seller or buyer, else the thread-not-found flash.  Then every message of the
thread addressed to the caller with NULL read_at gets read_at set to the one
current timestamp, and the thread's messages are returned ordered by
created_at ascending. -/
def message_thread_open (s : State) (callerId threadId : Nat) :
    Except Err (List Msg × State) :=
  match findUser s callerId with
  | none => .error .forbidden
  | some u =>
    match findThread s threadId with
    | none => .error .notFound
    | some th =>
      if th.sellerId ≠ u.id ∧ th.buyerId ≠ u.id then .error .notFound
      else
        .ok
          (((s.messages.map fun m =>
              if m.threadId = threadId ∧ m.recipientId = u.id ∧ m.readAt = none
              then { m with readAt := some s.clock } else m).filter
              fun m => m.threadId == threadId).insertionSort created_le,
           { s with
             messages := s.messages.map fun m =>
              if m.threadId = threadId ∧ m.recipientId = u.id ∧ m.readAt = none
              then { m with readAt := some s.clock } else m,
             clock := s.clock + 1 })

/-- The POST branch of the handler `message_thread`: send a message.  Empty
bodies are skipped (no row); otherwise an unread message row addressed to the
other party is inserted. -/
def send_message (s : State) (callerId threadId : Nat) (body : String) :
    Except Err State :=
  match findUser s callerId with
  | none => .error .forbidden
  | some u =>
    match findThread s threadId with
    | none => .error .notFound
    | some th =>
      if th.sellerId ≠ u.id ∧ th.buyerId ≠ u.id then .error .notFound
      else if body = "" then .ok s
      else
        .ok { s with
          messages := s.messages ++
            [⟨s.nextMsgId, threadId, u.id,
              (if th.sellerId = u.id then th.buyerId else th.sellerId),
              body, s.clock, none⟩],
          nextMsgId := s.nextMsgId + 1,
          clock := s.clock + 1 }

/-- The row filter `WHERE user_id = ? AND car_id = ?` on the favorites table. -/
def fav_matches (uid cid : Nat) (f : Fav) : Bool :=
  f.userId == uid && f.carId == cid

/-- The handler `toggle_favorite` (route /car/<id>/favorite).  Checks: caller
logged in; listing exists and its status is active, else the not-found flash.
Then the (user, car) row is deleted if present and inserted if absent. -/
def toggle_favorite (s : State) (callerId carId : Nat) : Except Err State :=
  match findUser s callerId with
  | none => .error .forbidden
  | some u =>
    match findCar s carId with
    | none => .error .notFound
    | some car =>
      if car.status ≠ .active then .error .notFound
      else if s.favorites.any (fav_matches u.id carId) then
        .ok { s with
          favorites := s.favorites.filter fun f => ! fav_matches u.id carId f }
      else
        .ok { s with
          favorites := s.favorites ++ [⟨u.id, carId, s.clock⟩],
          clock := s.clock + 1 }

/-- The (car, seller, buyer) triple identifying a thread. -/
def thread_key (t : MsgThread) : Nat × Nat × Nat := (t.carId, t.sellerId, t.buyerId)

/-- At most one thread row per exact (car, seller, buyer) triple. -/
def unique_threads (s : State) : Prop :=
  s.threads.Pairwise fun a b => thread_key a ≠ thread_key b

/-- Membership of a (user, car) pair in the favorites table. -/
def fav_mem (s : State) (uid cid : Nat) : Prop :=
  ∃ f ∈ s.favorites, f.userId = uid ∧ f.carId = cid

/-- The user with the given id exists and has the verified flag set. -/
def verified_in (s : State) (uid : Nat) : Prop :=
  ∃ u ∈ s.users, u.id = uid ∧ u.verified = true

/-- All four scores of a rating submission are in range. -/
def scores_ok (r a c p : Int) : Prop :=
  score_ok r ∧ score_ok a ∧ score_ok c ∧ score_ok p

instance (r a c p : Int) : Decidable (scores_ok r a c p) :=
  inferInstanceAs (Decidable (score_ok r ∧ score_ok a ∧ score_ok c ∧ score_ok p))

/-- The transaction exists, the caller is its buyer, and it is completed:
the conjunction `rate_transaction` gates its upsert on. -/
def tx_ratable (s : State) (txId callerId : Nat) : Prop :=
  ∃ t, findTxn s txId = some t ∧ t.buyerId = callerId ∧ t.status = .completed

/-- One step of any modeled operation other than `admin_verify_user`. -/
def NonAdminStep (s s' : State) : Prop :=
  (∃ a b c, complete_car s a b c = .ok s') ∨
  (∃ a b, confirm_transaction s a b = .ok s') ∨
  (∃ a b, cancel_transaction s a b = .ok s') ∨
  (∃ a b r x y z cm, rate_transaction s a b r x y z cm = .ok s') ∨
  (∃ a g, verify_seller s a g = .ok s') ∨
  (∃ a b c, s' = (get_or_create_thread s a b c).2) ∨
  (∃ a b msgs, message_thread_open s a b = .ok (msgs, s')) ∨
  (∃ a b body, send_message s a b body = .ok s') ∨
  (∃ a b, toggle_favorite s a b = .ok s')

/-- A small concrete database: seller 1 and buyer 2 (plus admin 9), one
active listing with id 1 owned by the seller, everything else empty. -/
def baseState : State where
  users := [⟨1, false, false⟩, ⟨2, false, false⟩, ⟨9, false, true⟩]
  cars := [⟨1, 1, .active⟩]
  transactions := []
  ratings := []
  threads := []
  messages := []
  favorites := []
  nextTxnId := 1
  nextRatingId := 1
  nextThreadId := 1
  nextMsgId := 1
  clock := 0

/-- Like `baseState` but listing 1 is already completed (sold). -/
def soldState : State := { baseState with cars := [⟨1, 1, .completed⟩] }

/-- Like `soldState` with one canceled transaction 1 (listing 1, seller 1,
buyer 2). -/
def canceledTxState : State :=
  { soldState with
    transactions := [⟨1, 1, 1, 2, .canceled, 0⟩]
    nextTxnId := 2 }

/-- Like `soldState` with one completed transaction 1 (listing 1, seller 1,
buyer 2). -/
def completedTxState : State :=
  { soldState with
    transactions := [⟨1, 1, 1, 2, .completed, 0⟩]
    nextTxnId := 2 }

/-- Seller 1 with five completed sales and the buyer opted in to none. -/
def fiveSalesState : State :=
  { baseState with
    transactions :=
      [⟨1, 1, 1, 2, .completed, 0⟩, ⟨2, 1, 1, 2, .completed, 0⟩,
       ⟨3, 1, 1, 2, .completed, 0⟩, ⟨4, 1, 1, 2, .completed, 0⟩,
       ⟨5, 1, 1, 2, .completed, 0⟩]
    nextTxnId := 6 }

/-- Like `baseState` but user 1 already has the verified flag set. -/
def verifiedState : State :=
  { baseState with users := [⟨1, true, false⟩, ⟨2, false, false⟩, ⟨9, false, true⟩] }

/-- A thread (id 1) on listing 1 between seller 1 and buyer 2, with an unread
message from the buyer to the seller and a later unread message from the
seller to the buyer. -/
def msgState : State :=
  { baseState with
    threads := [⟨1, 1, 1, 2, 0⟩]
    messages :=
      [⟨1, 1, 2, 1, "still available?", 0, none⟩,
       ⟨2, 1, 1, 2, "yes", 1, none⟩]
    nextThreadId := 2
    nextMsgId := 3
    clock := 2 }

/-- An element returned by `findUser` carries the looked-up id. -/
theorem findUser_id {s : State} {c : Nat} {u : User}
    (h : findUser s c = some u) : u.id = c := by
  have := List.find?_some h
  simpa using this

/-- An element returned by `findTxn` carries the looked-up id. -/
theorem findTxn_id {s : State} {c : Nat} {t : Txn}
    (h : findTxn s c = some t) : t.id = c := by
  have := List.find?_some h
  simpa using this

/-- An element returned by `findCar` carries the looked-up id. -/
theorem findCar_id {s : State} {c : Nat} {x : Car}
    (h : findCar s c = some x) : x.id = c := by
  have := List.find?_some h
  simpa using this

instance {ε α : Type} [DecidableEq ε] [DecidableEq α] : DecidableEq (Except ε α) :=
  fun x y =>
    match x, y with
    | .error a, .error b => decidable_of_iff (a = b) (by simp)
    | .error _, .ok _ => .isFalse (by simp)
    | .ok _, .error _ => .isFalse (by simp)
    | .ok a, .ok b => decidable_of_iff (a = b) (by simp)

instance (s : State) (uid : Nat) : Decidable (verified_in s uid) :=
  inferInstanceAs (Decidable (∃ u ∈ s.users, u.id = uid ∧ u.verified = true))

/-- Reserve listing 1 twice in a row: the second call runs on a listing whose
status is already completed. -/
def reserveTwice : Except Err State :=
  (complete_car baseState 1 1 2).bind fun s1 => complete_car s1 1 1 2

/-- Claim C1 counterexample: after a first reserve, listing 1 has status
completed (not active); a second reserve by the owner naming the same valid
buyer nevertheless succeeds and creates a second transaction row, where the
claim requires an InvalidState failure with no new rows. -/
theorem complete_car_cex :
    ((complete_car baseState 1 1 2).map fun s =>
        ((findCar s 1).map Car.status, s.transactions.length)) =
      .ok (some .completed, 1)
    ∧ (reserveTwice.map fun s =>
        (s.transactions.length, (findTxn s 2).map Txn.status)) =
      .ok (2, some .pending) := by
  decide

/-- Reserve listing 1, cancel the transaction, reserve again (transaction 2),
then cancel transaction 1 a second time. -/
def cancelTwiceChain : Except Err State :=
  (complete_car baseState 1 1 2).bind fun s1 =>
  (cancel_transaction s1 2 1).bind fun s2 =>
  (complete_car s2 1 1 2).bind fun s3 =>
  cancel_transaction s3 2 1

/-- Claim C3 counterexample: the second cancel of the already-canceled
transaction 1 is not a no-op — it sets listing 1 back to active even though
the listing had been reserved again under the still-pending transaction 2. -/
theorem cancel_transaction_cex :
    (cancelTwiceChain.map fun s =>
        ((findCar s 1).map Car.status, (findTxn s 1).map Txn.status,
         (findTxn s 2).map Txn.status)) =
      .ok (some .active, some .canceled, some .pending) := by
  decide

/-- Reserve listing 1, confirm transaction 1, rate it, then cancel it. -/
def ratedThenCanceled : Except Err State :=
  (complete_car baseState 1 1 2).bind fun s1 =>
  (confirm_transaction s1 2 1).bind fun s2 =>
  (rate_transaction s2 2 1 5 5 5 5 "great").bind fun s3 =>
  cancel_transaction s3 2 1

/-- Claim C2 counterexample: a reachable state in which a Rating row
references transaction 1 while that transaction's status is canceled, so the
invariant "a Rating exists only if the transaction is completed" is not
preserved by cancel_transaction. -/
theorem rating_invariant_cex :
    (ratedThenCanceled.map fun s =>
        (s.ratings.map Rating.transactionId, (findTxn s 1).map Txn.status)) =
      .ok ([1], some .canceled) := by
  decide

/-- Claim C5 counterexample: with transaction 99 absent the claim requires an
InvalidState failure, but when a score is also out of range the code's score
validation runs first and the call fails with ValidationError instead. -/
theorem rate_precedence_cex :
    findTxn baseState 99 = none
    ∧ rate_transaction baseState 2 99 0 5 5 5 "" = .error .validationError
    ∧ rate_transaction baseState 2 99 0 5 5 5 "" ≠ .error .invalidState := by
  decide

/-- Claim C9 counterexample: user 1 has the verified flag set, and the
admin_verify_user operation (reachable: caller 9 is an admin) clears it, so
the flag is not monotonic. -/
theorem verified_monotonic_cex :
    verified_in verifiedState 1
    ∧ ((admin_verify_user verifiedState 9 1 false).map fun s =>
        decide (verified_in s 1)) = .ok false := by
  decide

/-- Claim C4: confirm_transaction, called by the transaction's buyer, succeeds
and sets the transaction's status to completed unconditionally with respect to
the current status (including the terminal canceled); it modifies no listing
row and no other transaction field, and performs no InvalidState check on the
transaction's current status. -/
theorem confirm_transaction_unconditional (s : State) (caller txId : Nat)
    (u : User) (t : Txn)
    (hu : findUser s caller = some u)
    (ht : findTxn s txId = some t)
    (hbuy : t.buyerId = caller) :
    confirm_transaction s caller txId = .ok { s with
      transactions := s.transactions.map fun t0 =>
        if t0.id = txId then { t0 with status := .completed } else t0 } := by
  have hid : u.id = caller := findUser_id hu
  simp [confirm_transaction, hu, ht, hid, hbuy]

/-- Claim C4 witness: the buyer confirms the already-canceled transaction 1;
the call succeeds and flips the status to completed. -/
theorem confirm_transaction_unconditional_witness :
    confirm_transaction canceledTxState 2 1 = .ok { canceledTxState with
      transactions := canceledTxState.transactions.map fun t0 =>
        if t0.id = 1 then { t0 with status := .completed } else t0 } :=
  confirm_transaction_unconditional canceledTxState 2 1 ⟨2, false, false⟩
    ⟨1, 1, 1, 2, .canceled, 0⟩ (by decide) (by decide) (by decide)

/-- Claim C1 (amended): reserveTransaction requires that the caller owns the
listing and that the named buyer exists and differs from the caller, but it
does not inspect the listing's status: on any existing listing satisfying
those checks — whatever its status — it sets the listing's status to
completed and creates exactly one new pending transaction; there is no
InvalidState failure for a non-active listing. -/
theorem complete_car_reserves (s : State) (caller carId buyerId : Nat)
    (u : User) (car : Car) (b : User)
    (hu : findUser s caller = some u)
    (hcar : findCar s carId = some car)
    (hown : car.userId = caller)
    (hne : buyerId ≠ caller)
    (hb : findUser s buyerId = some b) :
    complete_car s caller carId buyerId = .ok { s with
      cars := s.cars.map fun c =>
        if c.id = carId then { c with status := .completed } else c,
      transactions := s.transactions ++
        [⟨s.nextTxnId, carId, caller, buyerId, .pending, s.clock⟩],
      nextTxnId := s.nextTxnId + 1,
      clock := s.clock + 1 } := by
  have hid : u.id = caller := findUser_id hu
  simp [complete_car, hu, hcar, hb, hid, hown, hne]

/-- Claim C1 witness: listing 1 of soldState has status completed, yet the
reserve succeeds and appends a pending transaction. -/
theorem complete_car_reserves_witness :
    complete_car soldState 1 1 2 = .ok { soldState with
      cars := soldState.cars.map fun c =>
        if c.id = 1 then { c with status := .completed } else c,
      transactions := soldState.transactions ++
        [⟨soldState.nextTxnId, 1, 1, 2, .pending, soldState.clock⟩],
      nextTxnId := soldState.nextTxnId + 1,
      clock := soldState.clock + 1 } :=
  complete_car_reserves soldState 1 1 2 ⟨1, false, false⟩ ⟨1, 1, .completed⟩
    ⟨2, false, false⟩ (by decide) (by decide) (by decide) (by decide) (by decide)

/-- Claim C3 (amended): cancel_transaction, called by the buyer or the seller
of a transaction of any current status, sets the transaction's status to
canceled and its listing's status to active, unconditionally; a repeated
cancel therefore re-applies both updates rather than being a no-op. -/
theorem cancel_transaction_unconditional (s : State) (caller txId : Nat)
    (u : User) (t : Txn)
    (hu : findUser s caller = some u)
    (ht : findTxn s txId = some t)
    (hparty : t.buyerId = caller ∨ t.sellerId = caller) :
    cancel_transaction s caller txId = .ok { s with
      transactions := s.transactions.map fun t0 =>
        if t0.id = txId then { t0 with status := .canceled } else t0,
      cars := s.cars.map fun c =>
        if c.id = t.carId then { c with status := .active } else c } := by
  have hid : u.id = caller := findUser_id hu
  rcases hparty with h | h <;> simp [cancel_transaction, hu, ht, hid, h]

/-- Claim C3 witness: the buyer cancels the already-canceled transaction 1; the
updates are re-applied, setting listing 1 back to active. -/
theorem cancel_transaction_unconditional_witness :
    cancel_transaction canceledTxState 2 1 = .ok { canceledTxState with
      transactions := canceledTxState.transactions.map fun t0 =>
        if t0.id = 1 then { t0 with status := .canceled } else t0,
      cars := canceledTxState.cars.map fun c =>
        if c.id = 1 then { c with status := .active } else c } :=
  cancel_transaction_unconditional canceledTxState 2 1 ⟨2, false, false⟩
    ⟨1, 1, 1, 2, .canceled, 0⟩ (by decide) (by decide) (Or.inl (by decide))

/-- Claim C5 (amended): with the caller logged in, rate_transaction fails with
ValidationError whenever any of the four scores is outside [1,5] (this check
runs first and takes precedence); when the scores are in range it fails with
InvalidState whenever the transaction does not exist, the caller is not its
buyer, or its status is not completed; and it succeeds exactly when all these
preconditions hold.  Failures perform no mutation. -/
theorem rate_transaction_classification (s : State) (caller txId : Nat)
    (r a c p : Int) (cm : String) (u : User)
    (hu : findUser s caller = some u) :
    (¬ scores_ok r a c p →
      rate_transaction s caller txId r a c p cm = .error .validationError)
    ∧ (scores_ok r a c p → ¬ tx_ratable s txId caller →
      rate_transaction s caller txId r a c p cm = .error .invalidState)
    ∧ ((∃ s', rate_transaction s caller txId r a c p cm = .ok s') ↔
      (scores_ok r a c p ∧ tx_ratable s txId caller)) := by
  have hid : u.id = caller := findUser_id hu
  by_cases hsc : score_ok r ∧ score_ok a ∧ score_ok c ∧ score_ok p
  · refine ⟨fun h => absurd hsc h, ?_, ?_⟩
    · intro _ hnr
      cases htx : findTxn s txId with
      | none => simp [rate_transaction, hu, hsc, htx]
      | some t =>
        have hgate : t.buyerId ≠ u.id ∨ t.status ≠ .completed := by
          by_contra hg
          push_neg at hg
          exact hnr ⟨t, htx, hg.1.trans hid, hg.2⟩
        rcases hgate with h | h <;>
          simp [rate_transaction, hu, hsc, htx, h]
    · constructor
      · rintro ⟨s', hs'⟩
        refine ⟨hsc, ?_⟩
        cases htx : findTxn s txId with
        | none => simp [rate_transaction, hu, hsc, htx] at hs'
        | some t =>
          by_cases hgate : t.buyerId ≠ u.id ∨ t.status ≠ .completed
          · rcases hgate with h | h <;>
              simp [rate_transaction, hu, hsc, htx, h] at hs'
          · push_neg at hgate
            exact ⟨t, htx, hgate.1.trans hid, hgate.2⟩
      · rintro ⟨-, t, htx, hb, hst⟩
        by_cases hb2 : s.ratings.any fun rt => rt.transactionId == txId <;>
          simp [rate_transaction, hu, hsc, htx, hb, hid, hst, hb2]
  · refine ⟨fun _ => by simp [rate_transaction, hu, hsc], fun h => absurd h hsc, ?_⟩
    constructor
    · rintro ⟨s', hs'⟩
      simp [rate_transaction, hu, hsc] at hs'
    · rintro ⟨h, -⟩
      exact absurd h hsc

/-- Claim C5 witness: in completedTxState the scores 4,4,4,4 are valid and
transaction 1 is the caller's completed purchase, so the call succeeds; the
out-of-range score 0 is rejected with ValidationError. -/
theorem rate_transaction_classification_witness :
    (∃ s', rate_transaction completedTxState 2 1 4 4 4 4 "ok" = .ok s')
    ∧ rate_transaction completedTxState 2 1 0 4 4 4 "ok" = .error .validationError := by
  constructor
  · exact (rate_transaction_classification completedTxState 2 1 4 4 4 4 "ok"
      ⟨2, false, false⟩ (by decide)).2.2.mpr
      ⟨by decide, ⟨1, 1, 1, 2, .completed, 0⟩, by decide, by decide, by decide⟩
  · exact (rate_transaction_classification completedTxState 2 1 0 4 4 4 "ok"
      ⟨2, false, false⟩ (by decide)).1 (by decide)

/-- Claim C2 (amended): a Rating row is written (inserted or updated) only
while the referenced transaction exists with the caller as buyer and status
completed — rate_transaction succeeds only under that precondition.  The
invariant does not persist, however: cancel_transaction does not delete
ratings, so a rating may end up referencing a canceled transaction. -/
theorem rating_only_when_completed (s : State) (caller txId : Nat)
    (r a c p : Int) (cm : String) (s' : State)
    (h : rate_transaction s caller txId r a c p cm = .ok s') :
    tx_ratable s txId caller := by
  unfold rate_transaction at h
  cases hu : findUser s caller with
  | none => rw [hu] at h; cases h
  | some u =>
    simp only [hu] at h
    have hid : u.id = caller := findUser_id hu
    by_cases hsc : score_ok r ∧ score_ok a ∧ score_ok c ∧ score_ok p
    · rw [if_neg (not_not_intro hsc)] at h
      cases htx : findTxn s txId with
      | none => rw [htx] at h; cases h
      | some t =>
        simp only [htx] at h
        by_cases hgate : t.buyerId ≠ u.id ∨ t.status ≠ .completed
        · rw [if_pos hgate] at h; cases h
        · push_neg at hgate
          exact ⟨t, htx, hgate.1.trans hid, hgate.2⟩
    · rw [if_pos hsc] at h
      cases h

/-- Claim C2 witness: rating the completed transaction 1 succeeds, and the
theorem recovers that transaction 1 was the caller's completed purchase. -/
theorem rating_only_when_completed_witness :
    tx_ratable completedTxState 1 2 := by
  refine rating_only_when_completed completedTxState 2 1 5 5 5 5 "x" ?_ ?_
  · exact { completedTxState with
      ratings := [⟨1, 1, 1, 2, 5, 5, 5, 5, "x", 0⟩],
      nextRatingId := 2,
      clock := 1 }
  · rfl

/-- upd_scores keeps the transaction id of the row. -/
@[simp]
theorem upd_scores_transactionId (r a c p : Int) (cm : String) (x : Rating) :
    (upd_scores r a c p cm x).transactionId = x.transactionId := rfl

/-- Updating the rows matching a key with the score-overwriting function
commutes with filtering for that key. -/
theorem filter_map_upd (l : List Rating) (tid : Nat)
    (r a c p : Int) (cm : String) :
    ((l.map fun x => if x.transactionId = tid then upd_scores r a c p cm x
        else x).filter fun x => x.transactionId == tid)
      = (l.filter fun x => x.transactionId == tid).map (upd_scores r a c p cm) := by
  induction l with
  | nil => rfl
  | cons x xs ih =>
    by_cases hx : x.transactionId = tid
    · simp [List.filter_cons, hx, ih]
    · simp [List.filter_cons, hx, ih]

/-- The score-overwriting update does not change whether some row matches the
key. -/
theorem any_map_upd (l : List Rating) (tid : Nat)
    (r a c p : Int) (cm : String) :
    ((l.map fun x => if x.transactionId = tid then upd_scores r a c p cm x
        else x).any fun x => x.transactionId == tid)
      = (l.any fun x => x.transactionId == tid) := by
  induction l with
  | nil => rfl
  | cons x xs ih =>
    by_cases hx : x.transactionId = tid
    · simp [hx]
    · simp [hx, ih]

/-- A row of the updated list that matches the key is an updated row. -/
theorem mem_map_upd (l : List Rating) (tid : Nat)
    (r a c p : Int) (cm : String) (rt : Rating)
    (hmem : rt ∈ l.map fun x =>
      if x.transactionId = tid then upd_scores r a c p cm x else x)
    (hkey : rt.transactionId = tid) : ∃ x, rt = upd_scores r a c p cm x := by
  rcases List.mem_map.1 hmem with ⟨x, _, heq⟩
  by_cases h : x.transactionId = tid
  · exact ⟨x, by rw [← heq, if_pos h]⟩
  · rw [if_neg h] at heq
    subst heq
    exact absurd hkey h

/-- Evaluation of rate_transaction when a rating row for the transaction
already exists: the conflict-update branch rewrites scores and comment. -/
theorem rate_call_update (s : State) (buyer txId : Nat) (u : User) (t : Txn)
    (r a c p : Int) (cm : String)
    (hu : findUser s buyer = some u)
    (ht : findTxn s txId = some t)
    (hb : t.buyerId = buyer)
    (hst : t.status = .completed)
    (h1 : score_ok r) (h2 : score_ok a) (h3 : score_ok c) (h4 : score_ok p)
    (hany : (s.ratings.any fun rt => rt.transactionId == txId) = true) :
    rate_transaction s buyer txId r a c p cm = .ok { s with
      ratings := s.ratings.map fun x =>
        if x.transactionId = txId then upd_scores r a c p cm x else x } := by
  have hid : u.id = buyer := findUser_id hu
  simp [rate_transaction, hu, ht, hb, hid, hst, h1, h2, h3, h4, hany]

/-- Evaluation of rate_transaction when no rating row for the transaction
exists yet: a fresh row is inserted. -/
theorem rate_call_insert (s : State) (buyer txId : Nat) (u : User) (t : Txn)
    (r a c p : Int) (cm : String)
    (hu : findUser s buyer = some u)
    (ht : findTxn s txId = some t)
    (hb : t.buyerId = buyer)
    (hst : t.status = .completed)
    (h1 : score_ok r) (h2 : score_ok a) (h3 : score_ok c) (h4 : score_ok p)
    (hany : (s.ratings.any fun rt => rt.transactionId == txId) = false) :
    rate_transaction s buyer txId r a c p cm = .ok { s with
      ratings := s.ratings ++
        [⟨s.nextRatingId, txId, t.sellerId, t.buyerId, r, a, c, p, cm,
          s.clock⟩],
      nextRatingId := s.nextRatingId + 1,
      clock := s.clock + 1 } := by
  have hid : u.id = buyer := findUser_id hu
  simp [rate_transaction, hu, ht, hb, hid, hst, h1, h2, h3, h4, hany]

/-- Claim C6: rate_transaction is an upsert keyed by the transaction id: when
the initial state has at most one rating row for the completed transaction (the
UNIQUE constraint of the schema), two successful calls by its buyer leave
exactly one rating row for that transaction, holding the scores and the
comment of the later call. -/
theorem rate_transaction_upsert (s : State) (buyer txId : Nat)
    (u : User) (t : Txn)
    (r1 a1 c1 p1 r2 a2 c2 p2 : Int) (cm1 cm2 : String)
    (hu : findUser s buyer = some u)
    (ht : findTxn s txId = some t)
    (hb : t.buyerId = buyer)
    (hst : t.status = .completed)
    (h1 : scores_ok r1 a1 c1 p1)
    (h2 : scores_ok r2 a2 c2 p2)
    (huniq : (s.ratings.filter fun rt => rt.transactionId == txId).length <= 1) :
    ∃ s1 s2,
      rate_transaction s buyer txId r1 a1 c1 p1 cm1 = .ok s1 ∧
      rate_transaction s1 buyer txId r2 a2 c2 p2 cm2 = .ok s2 ∧
      (s2.ratings.filter fun rt => rt.transactionId == txId).length = 1 ∧
      ∀ rt ∈ s2.ratings, rt.transactionId = txId →
        rt.reliability = r2 ∧ rt.accuracy = a2 ∧ rt.communication = c2 ∧
        rt.product = p2 ∧ rt.comment = cm2 := by
  obtain ⟨q1, q2, q3, q4⟩ := h1
  obtain ⟨w1, w2, w3, w4⟩ := h2
  by_cases hany : (s.ratings.any fun rt => rt.transactionId == txId) = true
  · -- a rating already exists: both calls take the conflict-update branch
    have hany1 : (((s.ratings.map fun x =>
          if x.transactionId = txId then upd_scores r1 a1 c1 p1 cm1 x
          else x).any fun rt => rt.transactionId == txId)) = true := by
      rw [any_map_upd]
      exact hany
    refine ⟨_, _,
      rate_call_update s buyer txId u t r1 a1 c1 p1 cm1 hu ht hb hst
        q1 q2 q3 q4 hany,
      rate_call_update _ buyer txId u t r2 a2 c2 p2 cm2 hu ht hb hst
        w1 w2 w3 w4 hany1, ?_, ?_⟩
    · dsimp only
      rw [filter_map_upd, filter_map_upd, List.length_map, List.length_map]
      rcases List.any_eq_true.1 hany with ⟨x, hx, hkey⟩
      have hmemf : x ∈ s.ratings.filter fun rt => rt.transactionId == txId :=
        List.mem_filter.2 ⟨hx, hkey⟩
      have hpos : 0 < (s.ratings.filter fun rt => rt.transactionId == txId).length :=
        List.length_pos.2 (List.ne_nil_of_mem hmemf)
      omega
    · dsimp only
      intro rt hmem hkey
      obtain ⟨x, hx⟩ := mem_map_upd _ _ r2 a2 c2 p2 cm2 rt hmem hkey
      subst hx
      exact ⟨rfl, rfl, rfl, rfl, rfl⟩
  · -- no rating yet: the first call inserts, the second updates it
    rw [Bool.not_eq_true] at hany
    have hany1 : (((s.ratings ++
          [(⟨s.nextRatingId, txId, t.sellerId, t.buyerId, r1, a1, c1, p1, cm1,
            s.clock⟩ : Rating)]).any fun rt => rt.transactionId == txId)) = true := by
      simp
    refine ⟨_, _,
      rate_call_insert s buyer txId u t r1 a1 c1 p1 cm1 hu ht hb hst
        q1 q2 q3 q4 hany,
      rate_call_update _ buyer txId u t r2 a2 c2 p2 cm2 hu ht hb hst
        w1 w2 w3 w4 hany1, ?_, ?_⟩
    · dsimp only
      rw [filter_map_upd, List.length_map, List.filter_append]
      have hnil : (s.ratings.filter fun rt => rt.transactionId == txId) = [] := by
        rw [List.filter_eq_nil_iff]
        intro a ha
        have hall := List.any_eq_false.1 hany
        simpa using hall a ha
      simp [hnil]
    · dsimp only
      intro rt hmem hkey
      obtain ⟨x, hx⟩ := mem_map_upd _ _ r2 a2 c2 p2 cm2 rt hmem hkey
      subst hx
      exact ⟨rfl, rfl, rfl, rfl, rfl⟩

/-- Claim C6 witness: rating completed transaction 1 twice with different
scores leaves exactly one rating row holding the second scores and comment. -/
theorem rate_transaction_upsert_witness :
    ∃ s1 s2,
      rate_transaction completedTxState 2 1 5 5 5 5 "great" = .ok s1 ∧
      rate_transaction s1 2 1 3 3 3 3 "meh" = .ok s2 ∧
      (s2.ratings.filter fun rt => rt.transactionId == 1).length = 1 ∧
      ∀ rt ∈ s2.ratings, rt.transactionId = 1 →
        rt.reliability = 3 ∧ rt.accuracy = 3 ∧ rt.communication = 3 ∧
        rt.product = 3 ∧ rt.comment = "meh" :=
  rate_transaction_upsert completedTxState 2 1 ⟨2, false, false⟩
    ⟨1, 1, 1, 2, .completed, 0⟩ 5 5 5 5 3 3 3 3 "great" "meh"
    (by decide) (by decide) (by decide) (by decide) (by decide) (by decide)
    (by decide)

/-- Claim C7: message_thread_open fails with NotFound (the thread-not-found
flash, no mutation) unless the viewer is the thread's seller or buyer; on
success every message of the thread addressed to the viewer with a null read
timestamp is marked read with one single timestamp, no other row of any table
changes, and the thread's complete message list is returned ordered by
creation time ascending. -/
theorem message_thread_open_spec (s : State) (viewer tid : Nat) (u : User)
    (hu : findUser s viewer = some u) :
    ((∀ th, findThread s tid = some th →
        th.sellerId ≠ viewer ∧ th.buyerId ≠ viewer) →
      message_thread_open s viewer tid = .error .notFound)
    ∧ (∀ th, findThread s tid = some th →
        (th.sellerId = viewer ∨ th.buyerId = viewer) →
        ∃ msgs s',
          message_thread_open s viewer tid = .ok (msgs, s') ∧
          (∃ ts, s'.messages = s.messages.map fun m =>
            if m.threadId = tid ∧ m.recipientId = viewer ∧ m.readAt = none
            then { m with readAt := some ts } else m) ∧
          List.Sorted created_le msgs ∧
          msgs.Perm (s'.messages.filter fun m => m.threadId == tid) ∧
          s'.users = s.users ∧ s'.cars = s.cars ∧
          s'.transactions = s.transactions ∧ s'.ratings = s.ratings ∧
          s'.threads = s.threads ∧ s'.favorites = s.favorites) := by
  have hid : u.id = viewer := findUser_id hu
  constructor
  · intro hnp
    cases hth : findThread s tid with
    | none => simp [message_thread_open, hu, hth]
    | some th =>
      obtain ⟨h1, h2⟩ := hnp th hth
      simp [message_thread_open, hu, hth, hid, h1, h2]
  · intro th hth hparty
    have e : message_thread_open s viewer tid = .ok
        ((((s.messages.map fun m =>
            if m.threadId = tid ∧ m.recipientId = viewer ∧ m.readAt = none
            then { m with readAt := some s.clock } else m).filter
            fun m => m.threadId == tid).insertionSort created_le),
         { s with
           messages := s.messages.map fun m =>
            if m.threadId = tid ∧ m.recipientId = viewer ∧ m.readAt = none
            then { m with readAt := some s.clock } else m,
           clock := s.clock + 1 }) := by
      rcases hparty with h | h <;> simp [message_thread_open, hu, hth, hid, h]
    refine ⟨_, _, e, ⟨s.clock, rfl⟩, ?_, ?_, rfl, rfl, rfl, rfl, rfl, rfl⟩
    · exact List.sorted_insertionSort created_le _
    · dsimp only
      exact List.perm_insertionSort created_le _

/-- Claim C7 witness: seller 1 opens thread 1 of msgState and the theorem
yields the success conjunction; the admin 9 who is no party gets NotFound. -/
theorem message_thread_open_spec_witness :
    (∃ msgs s',
      message_thread_open msgState 1 1 = .ok (msgs, s') ∧
      (∃ ts, s'.messages = msgState.messages.map fun m =>
        if m.threadId = 1 ∧ m.recipientId = 1 ∧ m.readAt = none
        then { m with readAt := some ts } else m) ∧
      List.Sorted created_le msgs ∧
      msgs.Perm (s'.messages.filter fun m => m.threadId == 1) ∧
      s'.users = msgState.users ∧ s'.cars = msgState.cars ∧
      s'.transactions = msgState.transactions ∧ s'.ratings = msgState.ratings ∧
      s'.threads = msgState.threads ∧ s'.favorites = msgState.favorites)
    ∧ message_thread_open msgState 9 1 = .error .notFound := by
  constructor
  · exact (message_thread_open_spec msgState 1 1 ⟨1, false, false⟩
      (by decide)).2 ⟨1, 1, 1, 2, 0⟩ (by decide) (Or.inl (by decide))
  · refine (message_thread_open_spec msgState 9 1 ⟨9, false, true⟩
      (by decide)).1 ?_
    intro th h
    rw [show findThread msgState 1 = some ⟨1, 1, 1, 2, 0⟩ from rfl] at h
    cases h
    decide

/-- Claim C8: get_or_create_thread is idempotent — a second call with the
identical (listing, seller, buyer) triple returns the same thread id and
leaves the state exactly as after the first call (no new row), and the
operation preserves the at-most-one-thread-per-triple invariant. -/
theorem get_or_create_thread_idempotent (s : State) (cid sid bid : Nat) :
    (get_or_create_thread (get_or_create_thread s cid sid bid).2 cid sid bid).1
      = (get_or_create_thread s cid sid bid).1
    ∧ (get_or_create_thread (get_or_create_thread s cid sid bid).2 cid sid bid).2
      = (get_or_create_thread s cid sid bid).2
    ∧ (unique_threads s → unique_threads (get_or_create_thread s cid sid bid).2) := by
  cases hf : s.threads.find? (fun t =>
      t.carId == cid && t.sellerId == sid && t.buyerId == bid) with
  | some t =>
    have e : get_or_create_thread s cid sid bid = (t.id, s) := by
      simp [get_or_create_thread, hf]
    rw [e]
    exact ⟨by rw [e], by rw [e], fun h => h⟩
  | none =>
    have e : get_or_create_thread s cid sid bid =
        (s.nextThreadId, { s with
          threads := s.threads ++ [⟨s.nextThreadId, cid, sid, bid, s.clock⟩],
          nextThreadId := s.nextThreadId + 1,
          clock := s.clock + 1 }) := by
      simp [get_or_create_thread, hf]
    have hf2 : ({ s with
          threads := s.threads ++ [⟨s.nextThreadId, cid, sid, bid, s.clock⟩],
          nextThreadId := s.nextThreadId + 1,
          clock := s.clock + 1 } : State).threads.find? (fun t =>
            t.carId == cid && t.sellerId == sid && t.buyerId == bid)
        = some ⟨s.nextThreadId, cid, sid, bid, s.clock⟩ := by
      dsimp only
      rw [List.find?_append, hf]
      simp
    have e2 : get_or_create_thread { s with
          threads := s.threads ++ [⟨s.nextThreadId, cid, sid, bid, s.clock⟩],
          nextThreadId := s.nextThreadId + 1,
          clock := s.clock + 1 } cid sid bid
        = (s.nextThreadId, { s with
          threads := s.threads ++ [⟨s.nextThreadId, cid, sid, bid, s.clock⟩],
          nextThreadId := s.nextThreadId + 1,
          clock := s.clock + 1 }) := by
      simp [get_or_create_thread, hf2]
    refine ⟨?_, ?_, ?_⟩
    · rw [e]; rw [e2]
    · rw [e]; rw [e2]
    · intro huni
      rw [e]
      unfold unique_threads at huni ⊢
      dsimp only
      rw [List.pairwise_append]
      refine ⟨huni, by simp, ?_⟩
      intro a ha b hb
      have hnp := List.find?_eq_none.1 hf a ha
      simp only [List.mem_singleton] at hb
      subst hb
      intro hkey
      apply hnp
      have h1 : a.carId = cid := congrArg Prod.fst hkey
      have h2 : a.sellerId = (thread_key ⟨s.nextThreadId, cid, sid, bid, s.clock⟩).2.1 :=
        congrArg (fun q => q.2.1) hkey
      have h3 : a.buyerId = (thread_key ⟨s.nextThreadId, cid, sid, bid, s.clock⟩).2.2 :=
        congrArg (fun q => q.2.2) hkey
      simp [thread_key] at h1 h2 h3
      simp [h1, h2, h3]

/-- Claim C8 witness: calling get_or_create_thread twice on baseState for the
triple (1, 1, 2) returns the same id both times, the second call changes
nothing, and the uniqueness invariant is preserved from the empty table. -/
theorem get_or_create_thread_idempotent_witness :
    (get_or_create_thread (get_or_create_thread baseState 1 1 2).2 1 1 2).1
      = (get_or_create_thread baseState 1 1 2).1
    ∧ (get_or_create_thread (get_or_create_thread baseState 1 1 2).2 1 1 2).2
      = (get_or_create_thread baseState 1 1 2).2
    ∧ unique_threads (get_or_create_thread baseState 1 1 2).2 := by
  obtain ⟨h1, h2, h3⟩ := get_or_create_thread_idempotent baseState 1 1 2
  exact ⟨h1, h2, h3 (by simp [unique_threads, baseState])⟩

/-- complete_car writes no users row. -/
theorem users_complete_car {s s' : State} {a b c : Nat}
    (h : complete_car s a b c = .ok s') : s'.users = s.users := by
  unfold complete_car at h
  repeat' split at h
  all_goals cases h
  all_goals rfl

/-- confirm_transaction writes no users row. -/
theorem users_confirm_transaction {s s' : State} {a b : Nat}
    (h : confirm_transaction s a b = .ok s') : s'.users = s.users := by
  unfold confirm_transaction at h
  repeat' split at h
  all_goals cases h
  all_goals rfl

/-- cancel_transaction writes no users row. -/
theorem users_cancel_transaction {s s' : State} {a b : Nat}
    (h : cancel_transaction s a b = .ok s') : s'.users = s.users := by
  unfold cancel_transaction at h
  repeat' split at h
  all_goals cases h
  all_goals rfl

/-- rate_transaction writes no users row. -/
theorem users_rate_transaction {s s' : State} {a b : Nat}
    {r x y z : Int} {cm : String}
    (h : rate_transaction s a b r x y z cm = .ok s') : s'.users = s.users := by
  unfold rate_transaction at h
  repeat' split at h
  all_goals cases h
  all_goals rfl

/-- get_or_create_thread writes no users row. -/
theorem users_get_or_create_thread (s : State) (a b c : Nat) :
    ((get_or_create_thread s a b c).2).users = s.users := by
  unfold get_or_create_thread
  split <;> rfl

/-- message_thread_open writes no users row. -/
theorem users_message_thread_open {s s' : State} {a b : Nat} {msgs : List Msg}
    (h : message_thread_open s a b = .ok (msgs, s')) : s'.users = s.users := by
  unfold message_thread_open at h
  repeat' split at h
  all_goals cases h
  all_goals rfl

/-- send_message writes no users row. -/
theorem users_send_message {s s' : State} {a b : Nat} {body : String}
    (h : send_message s a b body = .ok s') : s'.users = s.users := by
  unfold send_message at h
  repeat' split at h
  all_goals cases h
  all_goals rfl

/-- toggle_favorite writes no users row. -/
theorem users_toggle_favorite {s s' : State} {a b : Nat}
    (h : toggle_favorite s a b = .ok s') : s'.users = s.users := by
  unfold toggle_favorite at h
  repeat' split at h
  all_goals cases h
  all_goals rfl

/-- verify_seller only maps the caller's row to verified = true. -/
theorem users_verify_seller {s s' : State} {a : Nat} {g : Bool}
    (h : verify_seller s a g = .ok s') :
    ∃ u, findUser s a = some u ∧
      s'.users = s.users.map fun u0 =>
        if u0.id = u.id then { u0 with verified := true } else u0 := by
  unfold verify_seller at h
  cases hu : findUser s a with
  | none => rw [hu] at h; cases h
  | some u =>
    simp only [hu] at h
    refine ⟨u, rfl, ?_⟩
    repeat' split at h
    all_goals cases h
    rfl

/-- Setting one user's flag to true never clears another user's set flag. -/
theorem verified_in_map_set {l : List User} {uid tgt : Nat}
    (h : ∃ u ∈ l, u.id = uid ∧ u.verified = true) :
    ∃ u ∈ l.map fun u0 =>
        if u0.id = tgt then { u0 with verified := true } else u0,
      u.id = uid ∧ u.verified = true := by
  obtain ⟨u, hu, hid, hv⟩ := h
  by_cases ht : u.id = tgt
  · exact ⟨{ u with verified := true },
      List.mem_map.2 ⟨u, hu, by rw [if_pos ht]⟩, hid, rfl⟩
  · exact ⟨u, List.mem_map.2 ⟨u, hu, by rw [if_neg ht]⟩, hid, hv⟩

/-- Claim C9 (amended): verify_seller sets the caller's verified flag exactly
when they opt in and have at least 5 completed transactions as seller; and no
modeled operation other than admin_verify_user ever clears a set verified
flag (admin_verify_user, however, can set the flag to any value, so the flag
is not monotonic under the full operation set). -/
theorem verified_flag_spec :
    (∀ s caller agree u, findUser s caller = some u →
      (((∃ s', verify_seller s caller agree = .ok s') ↔
        (agree = true ∧ 5 ≤ (s.transactions.filter fun t =>
          t.sellerId == caller && t.status == TxStatus.completed).length))
      ∧ ∀ s', verify_seller s caller agree = .ok s' →
          s'.users = s.users.map fun u0 =>
            if u0.id = caller then { u0 with verified := true } else u0))
    ∧ ∀ s s', NonAdminStep s s' → ∀ uid,
        verified_in s uid → verified_in s' uid := by
  constructor
  · intro s caller agree u hu
    have hid : u.id = caller := findUser_id hu
    constructor
    · constructor
      · rintro ⟨s', hs'⟩
        unfold verify_seller at hs'
        simp only [hu] at hs'
        by_cases hg : agree = true
        · by_cases hc : (s.transactions.filter fun t =>
              t.sellerId == u.id && t.status == TxStatus.completed).length < 5
          · simp [hg, hc] at hs'
          · rw [hid] at hc
            exact ⟨hg, Nat.le_of_not_lt hc⟩
        · simp [hg] at hs'
      · rintro ⟨hg, hc⟩
        refine ⟨{ s with users := s.users.map fun u0 =>
          if u0.id = caller then { u0 with verified := true } else u0 }, ?_⟩
        have hc2 : ¬ (s.transactions.filter fun t =>
            t.sellerId == u.id && t.status == TxStatus.completed).length < 5 := by
          rw [hid]
          exact Nat.not_lt.2 hc
        simp [verify_seller, hu, hg, hc2, hid, hc]
    · intro s' hs'
      obtain ⟨u2, hu2, husers⟩ := users_verify_seller hs'
      rw [hu] at hu2
      cases hu2
      rw [husers, hid]
  · rintro s s' step uid hv
    rcases step with ⟨a, b, c, h⟩ | ⟨a, b, h⟩ | ⟨a, b, h⟩ |
      ⟨a, b, r, x, y, z, cm, h⟩ | ⟨a, g, h⟩ | ⟨a, b, c, h⟩ |
      ⟨a, b, msgs, h⟩ | ⟨a, b, body, h⟩ | ⟨a, b, h⟩
    · unfold verified_in at hv ⊢
      rw [users_complete_car h]
      exact hv
    · unfold verified_in at hv ⊢
      rw [users_confirm_transaction h]
      exact hv
    · unfold verified_in at hv ⊢
      rw [users_cancel_transaction h]
      exact hv
    · unfold verified_in at hv ⊢
      rw [users_rate_transaction h]
      exact hv
    · obtain ⟨u2, _, husers⟩ := users_verify_seller h
      unfold verified_in at hv ⊢
      rw [husers]
      exact verified_in_map_set hv
    · subst h
      unfold verified_in at hv ⊢
      rw [users_get_or_create_thread]
      exact hv
    · unfold verified_in at hv ⊢
      rw [users_message_thread_open h]
      exact hv
    · unfold verified_in at hv ⊢
      rw [users_send_message h]
      exact hv
    · unfold verified_in at hv ⊢
      rw [users_toggle_favorite h]
      exact hv

/-- Claim C9 witness: seller 1 of fiveSalesState opts in with 5 completed
sales and gets verified; and a toggle_favorite step keeps user 1 of
verifiedState verified. -/
theorem verified_flag_spec_witness :
    (∃ s', verify_seller fiveSalesState 1 true = .ok s')
    ∧ verified_in { verifiedState with favorites := [⟨1, 1, 0⟩], clock := 1 } 1 := by
  constructor
  · exact (verified_flag_spec.1 fiveSalesState 1 true ⟨1, false, false⟩
      (by decide)).1.mpr ⟨rfl, by decide⟩
  · exact verified_flag_spec.2 verifiedState
      { verifiedState with favorites := [⟨1, 1, 0⟩], clock := 1 }
      (Or.inr (Or.inr (Or.inr (Or.inr (Or.inr (Or.inr (Or.inr (Or.inr
        ⟨1, 1, by decide⟩))))))))
      1 (by decide)

/-- The favorites row filter matches exactly the (user, car) pair. -/
theorem fav_matches_iff {uid cid : Nat} {f : Fav} :
    fav_matches uid cid f = true ↔ f.userId = uid ∧ f.carId = cid := by
  simp [fav_matches]

/-- Claim C10: toggle_favorite fails with NotFound (no mutation) when the
listing is absent or not active; on an active listing it flips membership of
the caller's (user, listing) pair in the favorites table, so two successive
calls return the favorites table to its original membership. -/
theorem toggle_favorite_spec (s : State) (caller carId : Nat) (u : User)
    (hu : findUser s caller = some u) :
    ((∀ car, findCar s carId = some car → car.status ≠ .active) →
      toggle_favorite s caller carId = .error .notFound)
    ∧ (∀ car, findCar s carId = some car → car.status = .active →
      ∃ s1 s2, toggle_favorite s caller carId = .ok s1 ∧
        toggle_favorite s1 caller carId = .ok s2 ∧
        (fav_mem s1 caller carId ↔ ¬ fav_mem s caller carId) ∧
        ∀ a b, fav_mem s2 a b ↔ fav_mem s a b) := by
  have hid : u.id = caller := findUser_id hu
  constructor
  · intro hna
    cases hcar : findCar s carId with
    | none => simp [toggle_favorite, hu, hcar]
    | some car =>
      have hns := hna car hcar
      simp [toggle_favorite, hu, hcar, hns]
  · intro car hcar hact
    by_cases hany : (s.favorites.any (fav_matches u.id carId)) = true
    · -- the pair is present: delete then re-insert
      have e1 : toggle_favorite s caller carId = .ok { s with
          favorites := s.favorites.filter fun f => ! fav_matches u.id carId f } := by
        simp [toggle_favorite, hu, hcar, hact, hany]
      have hu1 : findUser { s with
          favorites := s.favorites.filter fun f => ! fav_matches u.id carId f }
          caller = some u := hu
      have hcar1 : findCar { s with
          favorites := s.favorites.filter fun f => ! fav_matches u.id carId f }
          carId = some car := hcar
      have hany1 : (((s.favorites.filter fun f =>
          ! fav_matches u.id carId f).any (fav_matches u.id carId))) = false := by
        rw [List.any_eq_false]
        intro f hf
        have := List.of_mem_filter hf
        simpa using this
      have e2 : toggle_favorite { s with
          favorites := s.favorites.filter fun f => ! fav_matches u.id carId f }
          caller carId = .ok { s with
          favorites := (s.favorites.filter fun f =>
            ! fav_matches u.id carId f) ++ [⟨u.id, carId, s.clock⟩],
          clock := s.clock + 1 } := by
        simp [toggle_favorite, hu1, hcar1, hact, hany1]
      obtain ⟨f0, hf0, hm0⟩ := List.any_eq_true.1 hany
      obtain ⟨hm1, hm2⟩ := fav_matches_iff.1 hm0
      have hmem : fav_mem s caller carId := ⟨f0, hf0, hid ▸ hm1, hm2⟩
      refine ⟨_, _, e1, e2, ?_, ?_⟩
      · unfold fav_mem
        dsimp only
        constructor
        · rintro ⟨f, hf, h1, h2⟩
          have hsurv := List.of_mem_filter hf
          simp only [Bool.not_eq_true'] at hsurv
          exact absurd (fav_matches_iff.2 ⟨h1.trans hid.symm, h2⟩)
            (by simp [hsurv])
        · intro hn
          exact absurd hmem hn
      · intro a b
        unfold fav_mem
        dsimp only
        constructor
        · rintro ⟨f, hf, h1, h2⟩
          rcases List.mem_append.1 hf with hl | hr
          · exact ⟨f, List.mem_of_mem_filter hl, h1, h2⟩
          · rw [List.mem_singleton] at hr
            subst hr
            exact ⟨f0, hf0, by rw [← h1, hm1], by rw [← h2, hm2]⟩
        · rintro ⟨f, hf, h1, h2⟩
          by_cases hm : fav_matches u.id carId f = true
          · obtain ⟨hma, hmb⟩ := fav_matches_iff.1 hm
            refine ⟨⟨u.id, carId, s.clock⟩, ?_, by rw [← h1, hma], by rw [← h2, hmb]⟩
            exact List.mem_append.2 (Or.inr (List.mem_singleton.2 rfl))
          · refine ⟨f, ?_, h1, h2⟩
            exact List.mem_append.2 (Or.inl (List.mem_filter.2 ⟨hf, by simp [hm]⟩))
    · -- the pair is absent: insert then delete restores the very same table
      rw [Bool.not_eq_true] at hany
      have e1 : toggle_favorite s caller carId = .ok { s with
          favorites := s.favorites ++ [⟨u.id, carId, s.clock⟩],
          clock := s.clock + 1 } := by
        simp [toggle_favorite, hu, hcar, hact, hany]
      have hu1 : findUser { s with
          favorites := s.favorites ++ [⟨u.id, carId, s.clock⟩],
          clock := s.clock + 1 } caller = some u := hu
      have hcar1 : findCar { s with
          favorites := s.favorites ++ [⟨u.id, carId, s.clock⟩],
          clock := s.clock + 1 } carId = some car := hcar
      have hany1 : (((s.favorites ++ [(⟨u.id, carId, s.clock⟩ : Fav)]).any
          (fav_matches u.id carId))) = true := by
        simp [fav_matches]
      have e2 : toggle_favorite { s with
          favorites := s.favorites ++ [⟨u.id, carId, s.clock⟩],
          clock := s.clock + 1 } caller carId = .ok { s with
          favorites := (s.favorites ++ [(⟨u.id, carId, s.clock⟩ : Fav)]).filter fun f =>
            ! fav_matches u.id carId f,
          clock := s.clock + 1 } := by
        simp [toggle_favorite, hu1, hcar1, hact, hany1]
      have hflt : ((s.favorites ++ [(⟨u.id, carId, s.clock⟩ : Fav)]).filter fun f =>
          ! fav_matches u.id carId f) = s.favorites := by
        rw [List.filter_append]
        have h1 : (s.favorites.filter fun f => ! fav_matches u.id carId f)
            = s.favorites := by
          rw [List.filter_eq_self]
          intro f hf
          have := List.any_eq_false.1 hany f hf
          simp [this]
        have h2 : (([(⟨u.id, carId, s.clock⟩ : Fav)]).filter fun f =>
            ! fav_matches u.id carId f) = [] := by
          simp [fav_matches]
        rw [h1, h2, List.append_nil]
      have hnm : ¬ fav_mem s caller carId := by
        rintro ⟨f, hf, h1, h2⟩
        have hfalse := List.any_eq_false.1 hany f hf
        exact absurd (fav_matches_iff.2 ⟨h1.trans hid.symm, h2⟩) hfalse
      refine ⟨_, _, e1, e2, ?_, ?_⟩
      · unfold fav_mem
        dsimp only
        constructor
        · intro _
          exact hnm
        · intro _
          exact ⟨(⟨u.id, carId, s.clock⟩ : Fav),
            List.mem_append.2 (Or.inr (List.mem_singleton.2 rfl)), hid, rfl⟩
      · intro a b
        unfold fav_mem
        dsimp only
        rw [hflt]

/-- Claim C10 witness: toggling a completed listing fails with NotFound, and
toggling active listing 1 twice from baseState restores the favorites
membership. -/
theorem toggle_favorite_spec_witness :
    toggle_favorite soldState 2 1 = .error .notFound
    ∧ ∃ s1 s2, toggle_favorite baseState 2 1 = .ok s1 ∧
        toggle_favorite s1 2 1 = .ok s2 ∧
        (fav_mem s1 2 1 ↔ ¬ fav_mem baseState 2 1) ∧
        ∀ a b, fav_mem s2 a b ↔ fav_mem baseState a b := by
  constructor
  · refine (toggle_favorite_spec soldState 2 1 ⟨2, false, false⟩ (by decide)).1 ?_
    intro car h
    rw [show findCar soldState 1 = some ⟨1, 1, .completed⟩ from rfl] at h
    cases h
    decide
  · exact (toggle_favorite_spec baseState 2 1 ⟨2, false, false⟩ (by decide)).2
      ⟨1, 1, .active⟩ (by decide) (by decide)
